import Mathlib

/-!
Verification of the camel-prompt-injection websocket RPC layer
(`src/daniel/server/`): the wire message model (`base_models.py`), the
server orchestrator (`camel_server.py`), the client session manager
(`camel_client.py`) and the registry / connection handler
(`websocket_wrapper.py`), shallowly embedded as executable Lean
definitions.  JSON values are modelled by the inductive `Json`; Python
dicts by association lists; network interaction by explicit traces of
sent messages, with the peer's replies supplied as oracle inputs.
-/

namespace Camel

/-- A JSON value, the payload type of every wire frame (Python objects
produced by `json.loads` / consumed by `json.dumps`). -/
inductive Json : Type where
  | null : Json
  | bool (b : Bool) : Json
  | num (n : Int) : Json
  | str (s : String) : Json
  | arr (elems : List Json) : Json
  | obj (fields : List (String × Json)) : Json

mutual

/-- Decidable equality on `Json` (the derive handler does not support
the nested `List` occurrences, so it is spelled out). -/
def Json.decEq : (a b : Json) → Decidable (a = b)
  | .null, .null => isTrue rfl
  | .null, .bool _ => isFalse (fun h => Json.noConfusion h)
  | .null, .num _ => isFalse (fun h => Json.noConfusion h)
  | .null, .str _ => isFalse (fun h => Json.noConfusion h)
  | .null, .arr _ => isFalse (fun h => Json.noConfusion h)
  | .null, .obj _ => isFalse (fun h => Json.noConfusion h)
  | .bool _, .null => isFalse (fun h => Json.noConfusion h)
  | .bool a, .bool b =>
    if h : a = b then isTrue (h ▸ rfl) else isFalse (fun hh => h (Json.bool.inj hh))
  | .bool _, .num _ => isFalse (fun h => Json.noConfusion h)
  | .bool _, .str _ => isFalse (fun h => Json.noConfusion h)
  | .bool _, .arr _ => isFalse (fun h => Json.noConfusion h)
  | .bool _, .obj _ => isFalse (fun h => Json.noConfusion h)
  | .num _, .null => isFalse (fun h => Json.noConfusion h)
  | .num _, .bool _ => isFalse (fun h => Json.noConfusion h)
  | .num a, .num b =>
    if h : a = b then isTrue (h ▸ rfl) else isFalse (fun hh => h (Json.num.inj hh))
  | .num _, .str _ => isFalse (fun h => Json.noConfusion h)
  | .num _, .arr _ => isFalse (fun h => Json.noConfusion h)
  | .num _, .obj _ => isFalse (fun h => Json.noConfusion h)
  | .str _, .null => isFalse (fun h => Json.noConfusion h)
  | .str _, .bool _ => isFalse (fun h => Json.noConfusion h)
  | .str _, .num _ => isFalse (fun h => Json.noConfusion h)
  | .str a, .str b =>
    if h : a = b then isTrue (h ▸ rfl) else isFalse (fun hh => h (Json.str.inj hh))
  | .str _, .arr _ => isFalse (fun h => Json.noConfusion h)
  | .str _, .obj _ => isFalse (fun h => Json.noConfusion h)
  | .arr _, .null => isFalse (fun h => Json.noConfusion h)
  | .arr _, .bool _ => isFalse (fun h => Json.noConfusion h)
  | .arr _, .num _ => isFalse (fun h => Json.noConfusion h)
  | .arr _, .str _ => isFalse (fun h => Json.noConfusion h)
  | .arr a, .arr b =>
    match Json.decEqList a b with
    | isTrue h => isTrue (h ▸ rfl)
    | isFalse h => isFalse (fun hh => h (Json.arr.inj hh))
  | .arr _, .obj _ => isFalse (fun h => Json.noConfusion h)
  | .obj _, .null => isFalse (fun h => Json.noConfusion h)
  | .obj _, .bool _ => isFalse (fun h => Json.noConfusion h)
  | .obj _, .num _ => isFalse (fun h => Json.noConfusion h)
  | .obj _, .str _ => isFalse (fun h => Json.noConfusion h)
  | .obj _, .arr _ => isFalse (fun h => Json.noConfusion h)
  | .obj a, .obj b =>
    match Json.decEqObj a b with
    | isTrue h => isTrue (h ▸ rfl)
    | isFalse h => isFalse (fun hh => h (Json.obj.inj hh))

/-- Decidable equality on lists of `Json` values. -/
def Json.decEqList : (a b : List Json) → Decidable (a = b)
  | [], [] => isTrue rfl
  | [], _ :: _ => isFalse (fun h => List.noConfusion h)
  | _ :: _, [] => isFalse (fun h => List.noConfusion h)
  | x :: xs, y :: ys =>
    match Json.decEq x y with
    | isTrue h1 =>
      match Json.decEqList xs ys with
      | isTrue h2 => isTrue (by rw [h1, h2])
      | isFalse h2 => isFalse (by intro h; injection h with _ ht; exact h2 ht)
    | isFalse h1 => isFalse (by intro h; injection h with hh _; exact h1 hh)

/-- Decidable equality on string-keyed `Json` association lists. -/
def Json.decEqObj : (a b : List (String × Json)) → Decidable (a = b)
  | [], [] => isTrue rfl
  | [], _ :: _ => isFalse (fun h => List.noConfusion h)
  | _ :: _, [] => isFalse (fun h => List.noConfusion h)
  | (k, v) :: xs, (k', v') :: ys =>
    if hk : k = k' then
      match Json.decEq v v' with
      | isTrue hv =>
        match Json.decEqObj xs ys with
        | isTrue ht => isTrue (by rw [hk, hv, ht])
        | isFalse ht => isFalse (by intro h; injection h with _ h2; exact ht h2)
      | isFalse hv =>
        isFalse (by intro h; injection h with h1 _; injection h1 with _ h1v; exact hv h1v)
    else
      isFalse (by intro h; injection h with h1 _; injection h1 with h1k _; exact hk h1k)

end

instance : DecidableEq Json := Json.decEq

/-- A parsed JSON object: what `json.loads` yields for a dict frame. -/
abbrev Dict : Type := List (String × Json)

/-- Python `d[k]` / `d.get(k)`: the first binding of `k` in the dict. -/
def lookupField : Dict → String → Option Json
  | [], _ => none
  | (k', v) :: rest, k => if k' = k then some v else lookupField rest k

/-- Python truthiness of a JSON value (`bool(x)`): empty string, zero,
empty containers, `None` and `False` are falsy. -/
def jsonTruthy : Json → Bool
  | .null => false
  | .bool b => b
  | .num n => n ≠ 0
  | .str s => s ≠ ""
  | .arr l => !l.isEmpty
  | .obj l => !l.isEmpty

/-- Rendering of a JSON value inside a Python f-string (`str(x)`).
Only the string case is ever relied on by a theorem; the container
cases approximate Python's `str` for totality. -/
def jstr : Json → String
  | .null => "None"
  | .bool b => if b then "True" else "False"
  | .num n => toString n
  | .str s => s
  | .arr _ => "[...]"
  | .obj _ => "{...}"

/-- Conversation message (`base_models.py`, class `Message`): role and
content as stored by `__init__` — Python performs no type check on the
dict values, so both fields are arbitrary JSON values. -/
structure Message where
  role : Json
  content : Json
  deriving DecidableEq

/-- `Message.to_dict`: `{"role": self.role, "content": self.content}`. -/
def Message.to_dict (m : Message) : Dict :=
  [("role", m.role), ("content", m.content)]

/-- `Message.from_dict`: `cls(role=data["role"], content=data["content"])`;
a missing key raises `KeyError`, modelled as `none`. -/
def Message.from_dict (data : Dict) : Option Message :=
  match lookupField data "role", lookupField data "content" with
  | some r, some c => some ⟨r, c⟩
  | _, _ => none

/-- A reply payload that carries either a `result` field or an `error`
field, as the three callback-response wire variants do. -/
inductive RoE (α : Type) : Type where
  | result (r : α)
  | error (e : String)
  deriving DecidableEq

/-- The wire message variants of the protocol (section 6 table), with
the field types the senders in `camel_client.py`, `camel_server.py` and
`websocket_wrapper.py` actually produce. -/
inductive Wire : Type where
  | register (clientId : String)
  | registered (clientId : String)
  | query (q : String) (tools : List Json)
  | queryReceived
  | plmCall (messages : List Message)
  | plmResponse (reply : RoE String)
  | qlmCall (prompt : String) (outputSchema : Json)
  | qlmResponse (reply : RoE Json)
  | functionCall (functionName : String) (args : Dict)
  | functionResponse (reply : RoE Json)
  | queryResponse (result : String)
  | errorMsg (message : String)
  deriving DecidableEq

/-- Encoding of a wire message to its JSON frame: the literal dicts the
senders build (e.g. `{"type": "plm_call", "messages": message_dicts}` in
`CamelServer.call_plm`, `{"type": "plm_response", "result": result}` in
`CamelClient._handle_server_callbacks`, the handshake dicts in
`websocket_wrapper.py`). -/
def encodeWire : Wire → Json
  | .register c => .obj [("type", .str "register"), ("client_id", .str c)]
  | .registered c => .obj [("type", .str "registered"), ("client_id", .str c)]
  | .query q tools => .obj [("type", .str "query"), ("query", .str q), ("tools", .arr tools)]
  | .queryReceived => .obj [("type", .str "query_received")]
  | .plmCall ms =>
    .obj [("type", .str "plm_call"),
          ("messages", .arr (ms.map (fun m => .obj m.to_dict)))]
  | .plmResponse (.result r) => .obj [("type", .str "plm_response"), ("result", .str r)]
  | .plmResponse (.error e) => .obj [("type", .str "plm_response"), ("error", .str e)]
  | .qlmCall p s => .obj [("type", .str "qlm_call"), ("prompt", .str p), ("output_schema", s)]
  | .qlmResponse (.result v) => .obj [("type", .str "qlm_response"), ("result", v)]
  | .qlmResponse (.error e) => .obj [("type", .str "qlm_response"), ("error", .str e)]
  | .functionCall n a =>
    .obj [("type", .str "function_call"), ("function_name", .str n), ("args", .obj a)]
  | .functionResponse (.result v) => .obj [("type", .str "function_response"), ("result", v)]
  | .functionResponse (.error e) => .obj [("type", .str "function_response"), ("error", .str e)]
  | .queryResponse r => .obj [("type", .str "query_response"), ("result", .str r)]
  | .errorMsg m => .obj [("type", .str "error"), ("message", .str m)]

/-- Decoding of a list of message dicts, as the client's `plm_call`
handler does with `[Message.from_dict(m) for m in data["messages"]]`. -/
def decodeMsgObjs : List Json → Option (List Message)
  | [] => some []
  | .obj d :: rest =>
    match Message.from_dict d, decodeMsgObjs rest with
    | some m, some ms => some (m :: ms)
    | _, _ => none
  | _ => none

/-- Decoding of a `messages` field value. -/
def decodeMsgList : Json → Option (List Message)
  | .arr l => decodeMsgObjs l
  | _ => none

/-- Decoding of a JSON frame back to a wire message: dispatch on the
`type` discriminator and read the fields the receive sites read (the
server's `handle_client` dispatch and `call_*` reply checks, the
client's callback loop), checking `error` before `result` on the three
callback replies exactly as `if "error" in response` does. -/
def decodeWire : Json → Option Wire
  | .obj d =>
    match lookupField d "type" with
    | some (.str "register") =>
      match lookupField d "client_id" with
      | some (.str c) => some (.register c)
      | _ => none
    | some (.str "registered") =>
      match lookupField d "client_id" with
      | some (.str c) => some (.registered c)
      | _ => none
    | some (.str "query") =>
      match lookupField d "query", lookupField d "tools" with
      | some (.str q), some (.arr ts) => some (.query q ts)
      | _, _ => none
    | some (.str "query_received") => some .queryReceived
    | some (.str "plm_call") =>
      match lookupField d "messages" with
      | some ms => (decodeMsgList ms).map Wire.plmCall
      | none => none
    | some (.str "plm_response") =>
      match lookupField d "error" with
      | some (.str e) => some (.plmResponse (.error e))
      | some _ => none
      | none =>
        match lookupField d "result" with
        | some (.str r) => some (.plmResponse (.result r))
        | _ => none
    | some (.str "qlm_call") =>
      match lookupField d "prompt", lookupField d "output_schema" with
      | some (.str p), some s => some (.qlmCall p s)
      | _, _ => none
    | some (.str "qlm_response") =>
      match lookupField d "error" with
      | some (.str e) => some (.qlmResponse (.error e))
      | some _ => none
      | none =>
        match lookupField d "result" with
        | some v => some (.qlmResponse (.result v))
        | none => none
    | some (.str "function_call") =>
      match lookupField d "function_name", lookupField d "args" with
      | some (.str n), some (.obj a) => some (.functionCall n a)
      | _, _ => none
    | some (.str "function_response") =>
      match lookupField d "error" with
      | some (.str e) => some (.functionResponse (.error e))
      | some _ => none
      | none =>
        match lookupField d "result" with
        | some v => some (.functionResponse (.result v))
        | none => none
    | some (.str "query_response") =>
      match lookupField d "result" with
      | some (.str r) => some (.queryResponse r)
      | _ => none
    | some (.str "error") =>
      match lookupField d "message" with
      | some (.str m) => some (.errorMsg m)
      | _ => none
    | _ => none
  | _ => none

/-! ## Server orchestrator (`camel_server.py`)

Each blocking `send_to_client` round-trip is modelled by passing the
client's reply frame (already parsed to a `Dict`) as an oracle input;
the message the server sends is recorded in a trace of `Wire` values.
A raised Python exception is an `Except.error` carrying its rendered
message. -/

/-- `CamelServer.call_plm`, reply processing: given the client's reply
frame, check the `type` field, raise on an `error` field, otherwise
return the `result` field (a missing key raises `KeyError`). -/
def call_plm (reply : Dict) : Except String Json :=
  match lookupField reply "type" with
  | none => .error "KeyError: type"
  | some t =>
    if t ≠ Json.str "plm_response" then
      .error ("Expected plm_response, got " ++ jstr t)
    else
      match lookupField reply "error" with
      | some e => .error ("PLM error: " ++ jstr e)
      | none =>
        match lookupField reply "result" with
        | some r => .ok r
        | none => .error "KeyError: result"

/-- `CamelServer.call_qlm`, reply processing (same shape as `call_plm`
with the `qlm_response` tag). -/
def call_qlm (reply : Dict) : Except String Json :=
  match lookupField reply "type" with
  | none => .error "KeyError: type"
  | some t =>
    if t ≠ Json.str "qlm_response" then
      .error ("Expected qlm_response, got " ++ jstr t)
    else
      match lookupField reply "error" with
      | some e => .error ("QLM error: " ++ jstr e)
      | none =>
        match lookupField reply "result" with
        | some r => .ok r
        | none => .error "KeyError: result"

/-- `CamelServer.call_function`, reply processing (same shape with the
`function_response` tag). -/
def call_function (reply : Dict) : Except String Json :=
  match lookupField reply "type" with
  | none => .error "KeyError: type"
  | some t =>
    if t ≠ Json.str "function_response" then
      .error ("Expected function_response, got " ++ jstr t)
    else
      match lookupField reply "error" with
      | some e => .error ("Function error: " ++ jstr e)
      | none =>
        match lookupField reply "result" with
        | some r => .ok r
        | none => .error "KeyError: result"

/-- Presence of the two illustrative tools in the function metadata the
server holds for a client (`"add_numbers" in ...`, `"get_weather" in ...`). -/
structure FnMeta where
  hasAdd : Bool
  hasWeather : Bool
  deriving DecidableEq

/-- Inputs of one `CamelServer.handle_query` run, with every external
call's outcome supplied as an oracle: the query frame's fields, the
outcome of `deserialize_functions_runtime`, the metadata previously
stored for the client, the outcome of
`default_system_prompt_generator`, and the client's reply frame to each
callback the server may issue.  Sends on the connection are modelled as
succeeding (the connection stays up for the run). -/
structure QueryCtx where
  /-- `data["query"]` — `none` when the key is absent (raises `KeyError`). -/
  queryField : Option Json
  /-- whether `"functions_runtime" in data`. -/
  hasFunctionsRuntime : Bool
  /-- outcome of `deserialize_functions_runtime(runtime_data)`,
  abstracted to the metadata keys the orchestrator later tests. -/
  deserOutcome : Except String FnMeta
  /-- `client_function_metadata` entry for the client before this query. -/
  priorMeta : Option FnMeta
  /-- outcome of `default_system_prompt_generator(...)`. -/
  sysPrompt : Except String String
  /-- the client's reply frame to the `plm_call`. -/
  plmReply : Dict
  /-- the client's reply frame to the `add_numbers` `function_call`. -/
  addReply : Dict
  /-- the client's reply frame to the `get_weather` `function_call`. -/
  weatherReply : Dict

/-- The `add_numbers` test block of `handle_query` (step 3): messages
sent and the strings appended to `function_results`; the inner
`try/except` folds a failure into the result list. -/
def addPart (meta : Option FnMeta) (reply : Dict) : List Wire × List String :=
  match meta with
  | some m =>
    if m.hasAdd then
      ([.functionCall "add_numbers" [("a", .num 2), ("b", .num 3)]],
       match call_function reply with
       | .ok v => ["add_numbers(2, 3) = " ++ jstr v]
       | .error e => ["add_numbers failed: " ++ e])
    else ([], [])
  | none => ([], [])

/-- The `get_weather` test block of `handle_query` (step 3). -/
def weatherPart (meta : Option FnMeta) (reply : Dict) : List Wire × List String :=
  match meta with
  | some m =>
    if m.hasWeather then
      ([.functionCall "get_weather" [("city", .str "San Francisco")]],
       match call_function reply with
       | .ok v => ["get_weather('San Francisco') = " ++ jstr v]
       | .error e => ["get_weather failed: " ++ e])
    else ([], [])
  | none => ([], [])

/-- The `try` block of `handle_query` (steps 1–4): the callback messages
sent, and either the composed result string or the exception that
escaped to the `except` clause. -/
def tryBody (ctx : QueryCtx) (q : Json) (meta : Option FnMeta) :
    List Wire × Except String String :=
  match ctx.sysPrompt with
  | .error e => ([], .error e)
  | .ok sp =>
    let msgs : List Message := [⟨.str "system", .str sp⟩, ⟨.str "user", q⟩]
    match call_plm ctx.plmReply with
    | .error e => ([.plmCall msgs], .error e)
    | .ok code =>
      let pa := addPart meta ctx.addReply
      let pw := weatherPart meta ctx.weatherReply
      let functionResults := pa.2 ++ pw.2
      let parts := ["Generated code: " ++ jstr code] ++
        (if functionResults.isEmpty then []
         else ["Function test results: " ++ String.intercalate ", " functionResults])
      (.plmCall msgs :: (pa.1 ++ pw.1), .ok (String.intercalate "\n" parts))

/-- Result of a `handle_query` run: the ordered trace of messages sent
on the client's connection, and the exception, if any, that escaped
`handle_query` itself (only possible before the acknowledgement, since
everything after it sits inside `try/except`). -/
structure HQResult where
  trace : List Wire
  raised : Option String
  deriving DecidableEq

/-- `CamelServer.handle_query`: reads `data["query"]`, stores the
deserialized runtime if one is attached (both can raise, before any
message is sent), sends the `query_received` acknowledgement, runs the
`try` block, and terminates with exactly one `query_response` — the
composed result on success, `"Error: " + str(e)` on failure. -/
def handle_query (ctx : QueryCtx) : HQResult :=
  match ctx.queryField with
  | none => ⟨[], some "KeyError: query"⟩
  | some q =>
    match (if ctx.hasFunctionsRuntime then ctx.deserOutcome.map some
           else .ok ctx.priorMeta : Except String (Option FnMeta)) with
    | .error e => ⟨[], some e⟩
    | .ok meta =>
      let body := tryBody ctx q meta
      let terminal := match body.2 with
        | .ok r => Wire.queryResponse r
        | .error e => Wire.queryResponse ("Error: " ++ e)
      ⟨Wire.queryReceived :: (body.1 ++ [terminal]), none⟩

/-- Whether a wire message is the terminal `query_response`. -/
def isTerminal : Wire → Bool
  | .queryResponse _ => true
  | _ => false

/-- Whether a wire message is one of the three server-initiated
callback requests. -/
def isCallbackMsg : Wire → Bool
  | .plmCall _ => true
  | .qlmCall _ _ => true
  | .functionCall _ _ => true
  | _ => false

/-! ## Client session manager (`camel_client.py`)

The client's receive loop is modelled over the list of frames the
server sends on the connection (the frames `listen_for_messages`
yields before the connection closes); the local PLM/QLM capabilities
are oracle functions that may fail. -/

/-- The `plm_response` reply dict the client's `plm_call` handler
builds: `{"type": "plm_response", "result": result}` on success,
`{"type": "plm_response", "error": str(e)}` when the capability
raises. -/
def clientPlmReply : Except String String → Dict
  | .ok r => [("type", .str "plm_response"), ("result", .str r)]
  | .error e => [("type", .str "plm_response"), ("error", .str e)]

/-- The `qlm_response` reply dict the client's `qlm_call` handler
builds. -/
def clientQlmReply : Except String Json → Dict
  | .ok r => [("type", .str "qlm_response"), ("result", r)]
  | .error e => [("type", .str "qlm_response"), ("error", .str e)]

/-- `CamelClient._handle_server_callbacks`: dispatch each inbound frame
on its `type`; answer `plm_call`/`qlm_call` by invoking the local
capability inside `try/except` and responding with result or error;
return the `result` field of a `query_response`; raise on an `error`
frame; silently skip unknown types; return `none` when the stream ends
without a terminal frame.  Yields the reply frames sent and the loop's
outcome (`.error` = an exception propagated out of the loop,
`.ok none` = stream exhausted, `.ok (some r)` = terminal result `r`). -/
def handle_server_callbacks (plm : List Message → Except String String)
    (qlm : Json → Json → Except String Json) :
    List Dict → List Dict × Except String (Option Json)
  | [] => ([], .ok none)
  | d :: rest =>
    if lookupField d "type" = some (.str "plm_call") then
      match lookupField d "messages" with
      | none => ([], .error "KeyError: messages")
      | some ms =>
        match decodeMsgList ms with
        | none => ([], .error "KeyError: role or content")
        | some messages =>
          let resp := clientPlmReply (plm messages)
          let rec' := handle_server_callbacks plm qlm rest
          (resp :: rec'.1, rec'.2)
    else if lookupField d "type" = some (.str "qlm_call") then
      match lookupField d "prompt" with
      | none => ([], .error "KeyError: prompt")
      | some prompt =>
        match lookupField d "output_schema" with
        | none => ([], .error "KeyError: output_schema")
        | some schema =>
          let resp := clientQlmReply (qlm prompt schema)
          let rec' := handle_server_callbacks plm qlm rest
          (resp :: rec'.1, rec'.2)
    else if lookupField d "type" = some (.str "query_response") then
      match lookupField d "result" with
      | some r => ([], .ok (some r))
      | none => ([], .error "KeyError: result")
    else if lookupField d "type" = some (.str "error") then
      match lookupField d "message" with
      | some m => ([], .error ("Server error: " ++ jstr m))
      | none => ([], .error "KeyError: message")
    else
      handle_server_callbacks plm qlm rest

/-- `CamelClient.query` after the query frame is sent (the client is
assumed connected): check that the immediate reply is `query_received`
(else raise), run the receive loop, and return
`result or "No response received"` — Python's `or` yields the sentinel
whenever `result` is `None` or falsy. -/
def queryCall (ack : Dict) (plm : List Message → Except String String)
    (qlm : Json → Json → Except String Json) (incoming : List Dict) :
    Except String Json :=
  if lookupField ack "type" ≠ some (.str "query_received") then
    .error "Unexpected server response"
  else
    match (handle_server_callbacks plm qlm incoming).2 with
    | .error e => .error e
    | .ok res =>
      .ok (match res with
           | some r => if jsonTruthy r then r else .str "No response received"
           | none => .str "No response received")

/-- A frame the receive loop handles without raising and without
terminating: a well-formed `plm_call` or `qlm_call`, or a frame of an
unrecognised type (which the loop's `if/elif` chain silently skips). -/
def benignFrame (d : Dict) : Bool :=
  if lookupField d "type" = some (.str "plm_call") then
    match lookupField d "messages" with
    | some ms => (decodeMsgList ms).isSome
    | none => false
  else if lookupField d "type" = some (.str "qlm_call") then
    (lookupField d "prompt").isSome && (lookupField d "output_schema").isSome
  else if lookupField d "type" = some (.str "query_response") then false
  else if lookupField d "type" = some (.str "error") then false
  else true

/-! ## Client connect retry loop (`CamelClient.connect`)

Each attempt of `self.websocket_client.connect(self.client_id)` is an
oracle outcome; `WebSocketClient.connect` assigns `self.websocket`
before the registration handshake, so a failed attempt leaves the
handle in an oracle-given state `wsFail i`, while a successful attempt
leaves it set. -/

instance {ε α : Type} [DecidableEq ε] [DecidableEq α] : DecidableEq (Except ε α)
  | .ok a, .ok b =>
    if h : a = b then isTrue (h ▸ rfl) else isFalse (fun hh => h (Except.ok.inj hh))
  | .ok _, .error _ => isFalse (fun h => Except.noConfusion h)
  | .error _, .ok _ => isFalse (fun h => Except.noConfusion h)
  | .error a, .error b =>
    if h : a = b then isTrue (h ▸ rfl) else isFalse (fun hh => h (Except.error.inj hh))

/-- Observable result of one `connect(max_retries)` call: how many
attempts ran, how many `asyncio.sleep(1)` delays were taken, whether
the call returned normally or re-raised, and the final `websocket`
handle state. -/
structure ConnectTrace where
  attempts : Nat
  sleeps : Nat
  result : Except String Unit
  ws : Option Unit
  deriving DecidableEq

/-- The body of `for attempt in range(max_retries)`: on success return;
on failure re-raise if `attempt == max_retries - 1`, else sleep one
unit and continue; falling off the loop returns normally.  `remaining`
is the number of loop iterations left (`max_retries - attempt`). -/
def connectGo (oc : Nat → Except String Unit) (wsFail : Nat → Option Unit)
    (maxRetries : Nat) : (attempt remaining : Nat) → Option Unit → ConnectTrace
  | attempt, 0, ws => ⟨attempt, attempt, .ok (), ws⟩
  | attempt, remaining + 1, _ =>
    match oc attempt with
    | .ok _ => ⟨attempt + 1, attempt, .ok (), some ()⟩
    | .error e =>
      if attempt = maxRetries - 1 then ⟨attempt + 1, attempt, .error e, wsFail attempt⟩
      else connectGo oc wsFail maxRetries (attempt + 1) remaining (wsFail attempt)

/-- `CamelClient.connect(max_retries)` starting from handle state `ws₀`. -/
def connect (oc : Nat → Except String Unit) (wsFail : Nat → Option Unit)
    (maxRetries : Nat) (ws₀ : Option Unit) : ConnectTrace :=
  connectGo oc wsFail maxRetries 0 maxRetries ws₀

/-- `CamelClient.is_connected`: `self.websocket_client.websocket is not None`. -/
def is_connected (ws : Option Unit) : Bool :=
  ws.isSome

/-- Index of the first successful attempt below `n`, if any. -/
def firstOkBelow (oc : Nat → Except String Unit) : Nat → Option Nat
  | 0 => none
  | n + 1 =>
    match firstOkBelow oc n with
    | some k => some k
    | none => match oc n with
      | .ok _ => some n
      | .error _ => none

/-- Whether an attempt outcome is a success. -/
def isOkE : Except String Unit → Bool
  | .ok _ => true
  | .error _ => false

/-! ## Server registry and connection handler (`websocket_wrapper.py`)

The registry `self.clients` is a dict from the registered `client_id`
value to the websocket connection (connections are numbered).  One
`handle_client` task is modelled as a fold over the frames arriving on
one connection, followed by the `finally` clause. -/

/-- The registry: insertion-ordered map from identity (a JSON value,
whatever `data["client_id"]` held) to connection number, with dict
assignment semantics (overwrite in place, append if new). -/
abbrev Registry : Type := List (Json × Nat)

/-- Dict assignment `self.clients[client_id] = websocket`
(`WebSocketServer.register_client`). -/
def register_client : Registry → Json → Nat → Registry
  | [], k, c => [(k, c)]
  | (k', c') :: rest, k, c =>
    if k' = k then (k, c) :: rest else (k', c') :: register_client rest k c

/-- Dict deletion `del self.clients[client_id]` guarded by membership
(`WebSocketServer.unregister_client`). -/
def unregister_client : Registry → Json → Registry
  | [], _ => []
  | (k', c') :: rest, k =>
    if k' = k then rest else (k', c') :: unregister_client rest k

/-- Registry lookup `self.clients[client_id]`. -/
def lookupRegistry : Registry → Json → Option Nat
  | [], _ => none
  | (k', c') :: rest, k => if k' = k then some c' else lookupRegistry rest k

/-- `WebSocketServer.send_to_client` / `send_to_client_only` routing:
the connection the message goes to, or the `ValueError` raised when the
identity is not in the registry. -/
def send_to_client (reg : Registry) (clientId : Json) : Except String Nat :=
  match lookupRegistry reg clientId with
  | some conn => .ok conn
  | none => .error "Client not connected"

/-- A frame arriving on one connection: either text that fails
`json.loads` or a parsed dict, the latter paired with the oracle
outcome of `handle_query` should this frame invoke it. -/
inductive Frame : Type where
  | malformed
  | data (d : Dict) (handlerOutcome : Except String Unit)

/-- A reply `handle_client` itself sends on the connection
(`handle_query`'s own sends go through the registry and are modelled by
`handle_query` above). -/
inductive SReply : Type where
  | registered (clientId : Json)
  | errorMsg (message : String)
  deriving DecidableEq

/-- One iteration of `WebSocketServer.handle_client`'s message loop:
given the registry, connection number, the handler-local `client_id`
variable and the inbound frame, produce the new registry, the new
`client_id` and the replies sent on this connection.  Mirrors the
dispatch: `register` stores the identity and acks; `query` from an
unregistered (falsy) `client_id` is refused; otherwise `handle_query`
runs (its own exception is caught and answered with an `error` reply);
anything else gets an `error` reply; `json.JSONDecodeError` and
`KeyError` are caught by the inner `except` clauses. -/
def handle_client_step (hasHandler : Bool) (reg : Registry) (conn : Nat)
    (clientId : Option Json) : Frame → Registry × Option Json × List SReply
  | .malformed => (reg, clientId, [.errorMsg "Invalid JSON"])
  | .data d ho =>
    let messageType := lookupField d "type"
    if messageType = some (.str "register") then
      match lookupField d "client_id" with
      | some j => (register_client reg j conn, some j, [.registered j])
      | none => (reg, clientId, [.errorMsg "KeyError: client_id"])
    else if messageType = some (.str "query") then
      match clientId with
      | none => (reg, clientId, [.errorMsg "Client not registered"])
      | some j =>
        if jsonTruthy j then
          if hasHandler then
            match ho with
            | .ok _ => (reg, clientId, [])
            | .error e => (reg, clientId, [.errorMsg e])
          else (reg, clientId, [.errorMsg "No query handler configured"])
        else (reg, clientId, [.errorMsg "Client not registered"])
    else
      (reg, clientId, [.errorMsg ("Unknown message type: " ++
        (match messageType with | some t => jstr t | none => "None"))])

/-- The whole message loop of one `handle_client` task over the frames
received before the connection closes. -/
def runConn (hasHandler : Bool) (reg : Registry) (conn : Nat)
    (clientId : Option Json) : List Frame → Registry × Option Json
  | [] => (reg, clientId)
  | f :: rest =>
    let step := handle_client_step hasHandler reg conn clientId f
    runConn hasHandler step.1 conn step.2.1 rest

/-- The `finally` clause of `handle_client`: `if client_id:
await self.unregister_client(client_id)` — note the truthiness test. -/
def closeConn (reg : Registry) : Option Json → Registry
  | some j => if jsonTruthy j then unregister_client reg j else reg
  | none => reg

/-- Distinctness of the registry's keys: the dict invariant that every
identity maps to at most one connection. -/
def keysNodup (reg : Registry) : Prop :=
  (reg.map Prod.fst).Nodup

/-! ## Theorems -/

/-- When `firstOkBelow` finds nothing, every attempt below `n` fails. -/
theorem firstOkBelow_none (oc : Nat → Except String Unit) :
    ∀ n, firstOkBelow oc n = none → ∀ i, i < n → isOkE (oc i) = false := by
  intro n
  induction n with
  | zero => intro _ i hi; omega
  | succ m ih =>
    intro h i hi
    unfold firstOkBelow at h
    rcases hf : firstOkBelow oc m with _ | k
    · rw [hf] at h
      rcases ho : oc m with e | u
      · rw [ho] at h
        rcases Nat.lt_succ_iff_lt_or_eq.mp hi with hlt | heq
        · exact ih hf i hlt
        · subst heq; rw [ho]; rfl
      · rw [ho] at h; simp at h
    · rw [hf] at h; simp at h

/-- When `firstOkBelow` finds `k`, attempt `k` succeeds, everything
before it fails, and `k` is in range. -/
theorem firstOkBelow_some (oc : Nat → Except String Unit) :
    ∀ n k, firstOkBelow oc n = some k →
      k < n ∧ oc k = .ok () ∧ ∀ i, i < k → isOkE (oc i) = false := by
  intro n
  induction n with
  | zero => intro k h; simp [firstOkBelow] at h
  | succ m ih =>
    intro k h
    unfold firstOkBelow at h
    rcases hf : firstOkBelow oc m with _ | k'
    · rw [hf] at h
      rcases ho : oc m with e | u
      · rw [ho] at h; simp at h
      · rw [ho] at h
        simp only [Option.some.injEq] at h
        subst h
        refine ⟨Nat.lt_succ_self m, ?_, firstOkBelow_none oc m hf⟩
        rw [ho]
    · rw [hf] at h
      simp only [Option.some.injEq] at h
      subst h
      obtain ⟨h1, h2, h3⟩ := ih k' hf
      exact ⟨Nat.lt_succ_of_lt h1, h2, h3⟩

/-- When every attempt fails, the retry loop makes exactly `n`
attempts with `n - 1` delays and re-raises the final failure. -/
theorem connectGo_all_fail (oc : Nat → Except String Unit)
    (wsFail : Nat → Option Unit) (n : Nat)
    (hfail : ∀ i, i < n → isOkE (oc i) = false) :
    ∀ remaining attempt ws, attempt + remaining = n → 1 ≤ remaining →
      connectGo oc wsFail n attempt remaining ws =
        ⟨n, n - 1, oc (n - 1), wsFail (n - 1)⟩ := by
  intro remaining
  induction remaining with
  | zero => intro attempt ws _ h1; omega
  | succ r ih =>
    intro attempt ws hsum _
    unfold connectGo
    rcases ho : oc attempt with e | u
    · dsimp only
      by_cases hlast : attempt = n - 1
      · rw [if_pos hlast]
        have h2 : attempt + 1 = n := by omega
        have h3 : oc (n - 1) = .error e := by rw [← hlast]; exact ho
        rw [hlast, h3]
        have h4 : n - 1 + 1 = n := by omega
        rw [h4]
      · rw [if_neg hlast]
        exact ih (attempt + 1) (wsFail attempt) (by omega) (by omega)
    · have := hfail attempt (by omega)
      rw [ho] at this
      simp [isOkE] at this

/-- When the first success is attempt `k`, the retry loop returns
normally after `k + 1` attempts with `k` delays. -/
theorem connectGo_first_ok (oc : Nat → Except String Unit)
    (wsFail : Nat → Option Unit) (n k : Nat) (hk : k < n)
    (hfail : ∀ i, i < k → isOkE (oc i) = false) (hok : oc k = .ok ()) :
    ∀ remaining attempt ws, attempt + remaining = n → attempt ≤ k →
      connectGo oc wsFail n attempt remaining ws = ⟨k + 1, k, .ok (), some ()⟩ := by
  intro remaining
  induction remaining with
  | zero => intro attempt ws hsum hle; omega
  | succ r ih =>
    intro attempt ws hsum hle
    unfold connectGo
    by_cases heq : attempt = k
    · subst heq
      rw [hok]
    · have hlt : attempt < k := by omega
      rcases ho : oc attempt with e | u
      · dsimp only
        have hlast : ¬ attempt = n - 1 := by omega
        rw [if_neg hlast]
        exact ih (attempt + 1) (wsFail attempt) (by omega) (by omega)
      · have := hfail attempt hlt
        rw [ho] at this
        simp [isOkE] at this

/-- C7: for `maxRetries ≥ 1`, `connect` tries the transport connect
plus registration handshake at most `maxRetries` times with one fixed
delay between consecutive attempts: it returns normally right after the
first successful attempt (`k + 1` attempts, `k` sleeps), and when every
attempt fails it makes `maxRetries` attempts, `maxRetries - 1` sleeps,
and re-raises the final attempt's failure. -/
theorem connect_retry_contract (oc : Nat → Except String Unit)
    (wsFail : Nat → Option Unit) (n : Nat) (ws0 : Option Unit) (h : 1 ≤ n) :
    match firstOkBelow oc n with
    | some k => connect oc wsFail n ws0 = ⟨k + 1, k, .ok (), some ()⟩
    | none => connect oc wsFail n ws0 = ⟨n, n - 1, oc (n - 1), wsFail (n - 1)⟩ := by
  rcases hf : firstOkBelow oc n with _ | k
  · dsimp only
    exact connectGo_all_fail oc wsFail n (firstOkBelow_none oc n hf) n 0 ws0
      (by omega) (by omega)
  · dsimp only
    obtain ⟨h1, h2, h3⟩ := firstOkBelow_some oc n k hf
    exact connectGo_first_ok oc wsFail n k h1 h3 h2 n 0 ws0 (by omega) (by omega)

/-- Attempt oracle for the C7 witness: the first attempt fails, the
second succeeds. -/
def ocWitness : Nat → Except String Unit :=
  fun i => if i = 0 then .error "connection refused" else .ok ()

/-- Failed-attempt handle states for the C7 witness. -/
def wsFailWitness : Nat → Option Unit := fun _ => none

/-- Witness for C7 at `maxRetries = 2` with the concrete oracle. -/
theorem connect_retry_contract_witness :
    1 ≤ 2 ∧
    (match firstOkBelow ocWitness 2 with
     | some k => connect ocWitness wsFailWitness 2 none = ⟨k + 1, k, .ok (), some ()⟩
     | none => connect ocWitness wsFailWitness 2 none =
         ⟨2, 2 - 1, ocWitness (2 - 1), wsFailWitness (2 - 1)⟩) :=
  ⟨by decide, connect_retry_contract ocWitness wsFailWitness 2 none (by decide)⟩

/-- C9: `connect` with `max_retries = 0` runs `range(0)`, so it makes
no attempt at all, takes no delay, returns normally (reporting no
failure), and leaves the `websocket` handle untouched: starting
disconnected, `is_connected` stays `False`. -/
theorem connect_zero_retries (oc : Nat → Except String Unit)
    (wsFail : Nat → Option Unit) (ws0 : Option Unit) :
    connect oc wsFail 0 ws0 = ⟨0, 0, .ok (), ws0⟩ ∧
      is_connected (connect oc wsFail 0 none).ws = false :=
  ⟨rfl, rfl⟩

/-- Nothing the `add_numbers` test block sends is a terminal message. -/
theorem addPart_not_terminal (meta : Option FnMeta) (reply : Dict) :
    ∀ w ∈ (addPart meta reply).1, isTerminal w = false := by
  intro w hw
  unfold addPart at hw
  rcases meta with _ | m
  · simp at hw
  · by_cases hA : m.hasAdd
    · simp only [hA, if_true] at hw
      rcases call_function reply with v | e <;>
        simp_all [isTerminal]
    · simp [hA] at hw

/-- Nothing the `get_weather` test block sends is a terminal message. -/
theorem weatherPart_not_terminal (meta : Option FnMeta) (reply : Dict) :
    ∀ w ∈ (weatherPart meta reply).1, isTerminal w = false := by
  intro w hw
  unfold weatherPart at hw
  rcases meta with _ | m
  · simp at hw
  · by_cases hW : m.hasWeather
    · simp only [hW, if_true] at hw
      rcases call_function reply with v | e <;>
        simp_all [isTerminal]
    · simp [hW] at hw

/-- Nothing sent inside the `try` block before the terminal send is a
terminal message. -/
theorem tryBody_sent_not_terminal (ctx : QueryCtx) (q : Json) (meta : Option FnMeta) :
    ∀ w ∈ (tryBody ctx q meta).1, isTerminal w = false := by
  intro w hw
  unfold tryBody at hw
  split at hw
  · simp at hw
  · split at hw
    · simp at hw
      subst hw; rfl
    · rcases List.mem_cons.mp hw with h | h
      · subst h; rfl
      · rcases List.mem_append.mp h with h' | h'
        · exact addPart_not_terminal meta ctx.addReply w h'
        · exact weatherPart_not_terminal meta ctx.weatherReply w h'

/-- Shape of a `handle_query` run: either it raised before the
acknowledgement and sent nothing, or the trace is the acknowledgement,
then the `try`-block callbacks, then exactly the one terminal message,
with no escaped exception. -/
theorem handle_query_shape (ctx : QueryCtx) :
    (handle_query ctx).trace = [] ∨
      ∃ q meta, ctx.queryField = some q ∧
        handle_query ctx =
          ⟨Wire.queryReceived ::
            ((tryBody ctx q meta).1 ++
              [match (tryBody ctx q meta).2 with
                | .ok r => Wire.queryResponse r
                | .error e => Wire.queryResponse ("Error: " ++ e)]),
            none⟩ := by
  unfold handle_query
  split
  · left; rfl
  · next q hq =>
      split
      · left; rfl
      · next meta hm => right; exact ⟨q, meta, hq, rfl⟩

/-- C1: for every accepted query (one whose trace contains the
`query_received` acknowledgement), `handle_query` sends exactly one
terminal `query_response` on the client's connection, whatever the
outcomes of the PLM call, the function calls and the result
composition, and no exception escapes `handle_query`: on internal
failure the terminal message carries `"Error: " + str(e)` instead. -/
theorem handle_query_exactly_one_terminal (ctx : QueryCtx)
    (h : Wire.queryReceived ∈ (handle_query ctx).trace) :
    ((handle_query ctx).trace.countP (fun w => isTerminal w)) = 1 ∧
      (handle_query ctx).raised = none := by
  rcases handle_query_shape ctx with hs | ⟨q, meta, hq, hs⟩
  · rw [hs] at h; simp at h
  · rw [hs]
    refine ⟨?_, rfl⟩
    simp only [List.countP_cons, List.countP_append]
    have hsent : ((tryBody ctx q meta).1.countP (fun w => isTerminal w)) = 0 :=
      List.countP_eq_zero.mpr (by
        intro w hw
        simp [tryBody_sent_not_terminal ctx q meta w hw])
    have hterm : isTerminal (match (tryBody ctx q meta).2 with
        | .ok r => Wire.queryResponse r
        | .error e => Wire.queryResponse ("Error: " ++ e)) = true := by
      rcases (tryBody ctx q meta).2 with e | r <;> rfl
    have hqr : isTerminal Wire.queryReceived = false := rfl
    simp only [List.countP_cons, List.countP_append, List.countP_nil, hsent, hterm, hqr]
    simp

/-- A fixed benign orchestrator context: a plain query with no attached
runtime, a successful system prompt and a successful PLM reply. -/
def ctxPlain : QueryCtx :=
  { queryField := some (.str "hi")
    hasFunctionsRuntime := false
    deserOutcome := .ok ⟨false, false⟩
    priorMeta := none
    sysPrompt := .ok "sys"
    plmReply := clientPlmReply (.ok "print(1)")
    addReply := []
    weatherReply := [] }

/-- Witness for C1 at the concrete context `ctxPlain`. -/
theorem handle_query_exactly_one_terminal_witness :
    Wire.queryReceived ∈ (handle_query ctxPlain).trace ∧
      (((handle_query ctxPlain).trace.countP (fun w => isTerminal w)) = 1 ∧
        (handle_query ctxPlain).raised = none) :=
  ⟨by decide, handle_query_exactly_one_terminal ctxPlain (by decide)⟩

/-- C3: the `query_received` acknowledgement is the first message the
server sends on the connection for an accepted query, so it precedes
every `plm_call`, `qlm_call` and `function_call` callback issued for
that query (each callback sits strictly later in the trace). -/
theorem ack_precedes_callbacks (ctx : QueryCtx) (w : Wire)
    (h1 : w ∈ (handle_query ctx).trace) (h2 : isCallbackMsg w = true) :
    (handle_query ctx).trace.head? = some Wire.queryReceived ∧
      w ∈ (handle_query ctx).trace.tail := by
  rcases handle_query_shape ctx with hs | ⟨q, meta, hq, hs⟩
  · rw [hs] at h1; simp at h1
  · rw [hs] at h1 ⊢
    refine ⟨rfl, ?_⟩
    rcases List.mem_cons.mp h1 with h | h
    · subst h; simp [isCallbackMsg] at h2
    · simpa using h

/-- A concrete `plm_call` frame as the server sends it. -/
def plmCallFrame : Dict :=
  [("type", .str "plm_call"),
   ("messages", .arr [.obj [("role", .str "system"), ("content", .str "s")]])]

/-- A concrete terminal `query_response` frame with result `"ok"`. -/
def queryRespFrame : Dict :=
  [("type", .str "query_response"), ("result", .str "ok")]

/-- An orchestrator context whose `plm_call` is answered by the reply
the client builds when its PLM capability raises with message `e`. -/
def ctxPlmFail (e : String) : QueryCtx :=
  { queryField := some (.str "q")
    hasFunctionsRuntime := false
    deserOutcome := .ok ⟨false, false⟩
    priorMeta := none
    sysPrompt := .ok "sys"
    plmReply := clientPlmReply (.error e)
    addReply := []
    weatherReply := [] }

/-- C6: when the local PLM capability raises with message `e`, the
client's `plm_call` handler replies with a `plm_response` carrying an
`error` field and its receive loop keeps running (here it still reaches
the later terminal frame); the server's `call_plm` turns that reply
into the exception `"PLM error: e"`, and `handle_query` folds it into a
single terminal `query_response` instead of crashing. -/
theorem plm_error_reply_and_folding (e : String) :
    clientPlmReply (.error e) = [("type", .str "plm_response"), ("error", .str e)] ∧
    call_plm (clientPlmReply (.error e)) = .error ("PLM error: " ++ e) ∧
    handle_server_callbacks (fun _ => .error e) (fun _ _ => .ok .null)
        [plmCallFrame, queryRespFrame] =
      ([clientPlmReply (.error e)], .ok (some (.str "ok"))) ∧
    handle_query (ctxPlmFail e) =
      ⟨[.queryReceived,
        .plmCall [⟨.str "system", .str "sys"⟩, ⟨.str "user", .str "q"⟩],
        .queryResponse ("Error: " ++ ("PLM error: " ++ e))], none⟩ :=
  ⟨rfl, rfl, rfl, rfl⟩

/-- Keys after a dict assignment: the assigned key joins the key set,
nothing else changes. -/
theorem mem_keys_register_client :
    ∀ (reg : Registry) (k : Json) (v : Nat) (x : Json),
      x ∈ (register_client reg k v).map Prod.fst ↔ x ∈ reg.map Prod.fst ∨ x = k := by
  intro reg k v x
  induction reg with
  | nil => simp [register_client]
  | cons p rest ih =>
    rcases p with ⟨k', v'⟩
    unfold register_client
    by_cases h : k' = k
    · rw [if_pos h]
      subst h
      simp
      tauto
    · rw [if_neg h]
      simp only [List.map_cons, List.mem_cons, ih]
      tauto

/-- Dict assignment preserves distinctness of the keys. -/
theorem keysNodup_register_client :
    ∀ (reg : Registry) (k : Json) (v : Nat), keysNodup reg →
      keysNodup (register_client reg k v) := by
  intro reg k v h
  induction reg with
  | nil => simp [register_client, keysNodup]
  | cons p rest ih =>
    rcases p with ⟨k', v'⟩
    unfold register_client
    unfold keysNodup at h ⊢
    simp only [List.map_cons, List.nodup_cons] at h
    by_cases hk : k' = k
    · rw [if_pos hk]
      subst hk
      simp only [List.map_cons, List.nodup_cons]
      exact h
    · rw [if_neg hk]
      simp only [List.map_cons, List.nodup_cons]
      refine ⟨?_, ih h.2⟩
      intro hmem
      rcases (mem_keys_register_client rest k v k').mp hmem with hin | heq
      · exact h.1 hin
      · exact hk heq

/-- Keys after a dict deletion are among the original keys. -/
theorem mem_keys_unregister_client :
    ∀ (reg : Registry) (k x : Json),
      x ∈ (unregister_client reg k).map Prod.fst → x ∈ reg.map Prod.fst := by
  intro reg k x
  induction reg with
  | nil => simp [unregister_client]
  | cons p rest ih =>
    rcases p with ⟨k', v'⟩
    unfold unregister_client
    by_cases h : k' = k
    · rw [if_pos h]
      intro hmem
      simp only [List.map_cons, List.mem_cons]
      exact Or.inr hmem
    · rw [if_neg h]
      simp only [List.map_cons, List.mem_cons]
      rintro (heq | hmem)
      · exact Or.inl heq
      · exact Or.inr (ih hmem)

/-- Dict deletion preserves distinctness of the keys. -/
theorem keysNodup_unregister_client :
    ∀ (reg : Registry) (k : Json), keysNodup reg → keysNodup (unregister_client reg k) := by
  intro reg k h
  induction reg with
  | nil => simp [unregister_client, keysNodup]
  | cons p rest ih =>
    rcases p with ⟨k', v'⟩
    unfold unregister_client
    unfold keysNodup at h ⊢
    simp only [List.map_cons, List.nodup_cons] at h
    by_cases hk : k' = k
    · rw [if_pos hk]
      exact h.2
    · rw [if_neg hk]
      simp only [List.map_cons, List.nodup_cons]
      exact ⟨fun hmem => h.1 (mem_keys_unregister_client rest k k' hmem), ih h.2⟩

/-- A key absent from the key set looks up to nothing. -/
theorem lookupRegistry_eq_none :
    ∀ (reg : Registry) (k : Json), k ∉ reg.map Prod.fst →
      lookupRegistry reg k = none := by
  intro reg k
  induction reg with
  | nil => intro _; rfl
  | cons p rest ih =>
    rcases p with ⟨k', v'⟩
    intro h
    simp only [List.map_cons, List.mem_cons] at h
    push_neg at h
    unfold lookupRegistry
    rw [if_neg (fun hc => h.1 hc.symm)]
    exact ih h.2

/-- On a registry with distinct keys, deleting a key makes it look up
to nothing. -/
theorem lookupRegistry_unregister_client :
    ∀ (reg : Registry) (k : Json), keysNodup reg →
      lookupRegistry (unregister_client reg k) k = none := by
  intro reg k h
  induction reg with
  | nil => rfl
  | cons p rest ih =>
    rcases p with ⟨k', v'⟩
    unfold keysNodup at h
    simp only [List.map_cons, List.nodup_cons] at h
    unfold unregister_client
    by_cases hk : k' = k
    · rw [if_pos hk]
      subst hk
      exact lookupRegistry_eq_none rest k' h.1
    · rw [if_neg hk]
      unfold lookupRegistry
      rw [if_neg hk]
      exact ih h.2

/-- One `handle_client` loop iteration preserves key distinctness of
the registry. -/
theorem handle_client_step_keysNodup (hasHandler : Bool) (reg : Registry)
    (conn : Nat) (clientId : Option Json) (f : Frame) (h : keysNodup reg) :
    keysNodup (handle_client_step hasHandler reg conn clientId f).1 := by
  unfold handle_client_step
  rcases f with _ | ⟨d, ho⟩
  · exact h
  · dsimp only
    by_cases h1 : lookupField d "type" = some (.str "register")
    · rw [if_pos h1]
      rcases lookupField d "client_id" with _ | j
      · exact h
      · exact keysNodup_register_client reg j conn h
    · rw [if_neg h1]
      by_cases h2 : lookupField d "type" = some (.str "query")
      · rw [if_pos h2]
        rcases clientId with _ | j
        · exact h
        · try dsimp only
          by_cases h3 : jsonTruthy j = true
          · rw [if_pos h3]
            rcases hasHandler with _ | _
            · exact h
            · try dsimp only
              rcases ho with e | u
              · exact h
              · exact h
          · rw [if_neg h3]
            exact h
      · rw [if_neg h2]
        exact h

/-- The whole message loop preserves key distinctness. -/
theorem runConn_keysNodup (hasHandler : Bool) (conn : Nat) :
    ∀ (frames : List Frame) (reg : Registry) (clientId : Option Json),
      keysNodup reg → keysNodup (runConn hasHandler reg conn clientId frames).1 := by
  intro frames
  induction frames with
  | nil => intro reg clientId h; exact h
  | cons f rest ih =>
    intro reg clientId h
    exact ih _ _ (handle_client_step_keysNodup hasHandler reg conn clientId f h)

/-- A benign frame neither raises nor terminates the client's receive
loop: the loop's outcome over `d :: rest` equals its outcome over
`rest`. -/
theorem benign_step (plm : List Message → Except String String)
    (qlm : Json → Json → Except String Json) (d : Dict) (rest : List Dict)
    (hb : benignFrame d = true) :
    (handle_server_callbacks plm qlm (d :: rest)).2 =
      (handle_server_callbacks plm qlm rest).2 := by
  unfold benignFrame at hb
  conv_lhs => rw [handle_server_callbacks]
  by_cases h1 : lookupField d "type" = some (.str "plm_call")
  · rw [if_pos h1] at hb ⊢
    rcases hm : lookupField d "messages" with _ | ms
    · rw [hm] at hb; simp at hb
    · rw [hm] at hb
      dsimp only at hb ⊢
      rcases hd : decodeMsgList ms with _ | msgs
      · rw [hd] at hb; simp at hb
      · rfl
  · rw [if_neg h1] at hb ⊢
    by_cases h2 : lookupField d "type" = some (.str "qlm_call")
    · rw [if_pos h2] at hb ⊢
      rcases hp : lookupField d "prompt" with _ | prompt
      · rw [hp] at hb; simp at hb
      · dsimp only
        rcases hs : lookupField d "output_schema" with _ | schema
        · rw [hs] at hb; simp at hb
        · rfl
    · rw [if_neg h2] at hb ⊢
      by_cases h3 : lookupField d "type" = some (.str "query_response")
      · rw [if_pos h3] at hb; simp at hb
      · rw [if_neg h3] at hb ⊢
        by_cases h4 : lookupField d "type" = some (.str "error")
        · rw [if_pos h4] at hb; simp at hb
        · rw [if_neg h4]

/-- A receive stream of benign frames only ends with the loop falling
through: outcome `.ok none` (Python `return None`). -/
theorem benign_stream_no_terminal (plm : List Message → Except String String)
    (qlm : Json → Json → Except String Json) :
    ∀ incoming : List Dict, (∀ x ∈ incoming, benignFrame x = true) →
      (handle_server_callbacks plm qlm incoming).2 = .ok none := by
  intro incoming h
  induction incoming with
  | nil => rfl
  | cons d rest ih =>
    rw [benign_step plm qlm d rest (h d (by simp))]
    exact ih (fun x hx => h x (by simp [hx]))

/-- After any benign prefix, the first `query_response` frame ends the
loop with its `result` field. -/
theorem loop_first_terminal (plm : List Message → Except String String)
    (qlm : Json → Json → Except String Json) (pre : List Dict) (d : Dict)
    (rest : List Dict) (r : Json)
    (hpre : ∀ x ∈ pre, benignFrame x = true)
    (hty : lookupField d "type" = some (.str "query_response"))
    (hres : lookupField d "result" = some r) :
    (handle_server_callbacks plm qlm (pre ++ d :: rest)).2 = .ok (some r) := by
  induction pre with
  | nil =>
    have h1 : ¬ lookupField d "type" = some (.str "plm_call") := by
      rw [hty]; decide
    have h2 : ¬ lookupField d "type" = some (.str "qlm_call") := by
      rw [hty]; decide
    simp only [List.nil_append]
    unfold handle_server_callbacks
    rw [if_neg h1, if_neg h2, if_pos hty, hres]
  | cons x pre' ih =>
    rw [List.cons_append, benign_step plm qlm x _ (hpre x (by simp))]
    exact ih (fun y hy => hpre y (by simp [hy]))

/-- The acknowledgement frame `{"type": "query_received"}`. -/
def ackReceived : Dict := [("type", .str "query_received")]

/-- C2 counterexample: a terminal `query_response` whose `result` field
holds the empty string.  Python's `return result or "No response
received"` treats the falsy `""` like `None`, so `query` returns the
sentinel, not the result field's string. -/
theorem query_empty_result_gives_sentinel :
    queryCall ackReceived (fun _ => .ok "x") (fun _ _ => .ok .null)
        [[("type", .str "query_response"), ("result", .str "")]] =
      .ok (.str "No response received") ∧
    Json.str "No response received" ≠ Json.str "" :=
  ⟨rfl, by decide⟩

/-- C2 (amended): for a query whose immediate reply is
`query_received`, `query` returns the `result` field of the first
terminal `query_response` when that field is truthy, and the sentinel
`"No response received"` when it is falsy (e.g. the empty string); if
the receive loop ends without a terminal message (connection closed),
`query` returns the sentinel instead of hanging. -/
theorem query_returns_first_truthy_terminal (plm : List Message → Except String String)
    (qlm : Json → Json → Except String Json) (pre : List Dict) (d : Dict)
    (rest : List Dict) (r : Json)
    (hpre : ∀ x ∈ pre, benignFrame x = true)
    (hty : lookupField d "type" = some (.str "query_response"))
    (hres : lookupField d "result" = some r) :
    queryCall ackReceived plm qlm (pre ++ d :: rest) =
      .ok (if jsonTruthy r then r else .str "No response received") ∧
    ∀ incoming : List Dict, (∀ x ∈ incoming, benignFrame x = true) →
      queryCall ackReceived plm qlm incoming = .ok (.str "No response received") := by
  constructor
  · unfold queryCall
    rw [if_neg (by decide), loop_first_terminal plm qlm pre d rest r hpre hty hres]
  · intro incoming hinc
    unfold queryCall
    rw [if_neg (by decide), benign_stream_no_terminal plm qlm incoming hinc]

/-- Witness for the amended C2 at a concrete stream: one benign
`plm_call`, then a terminal with result `"hello"`. -/
theorem query_returns_first_truthy_terminal_witness :
    (∀ x ∈ [plmCallFrame], benignFrame x = true) ∧
    lookupField [("type", .str "query_response"), ("result", .str "hello")] "type" =
      some (.str "query_response") ∧
    lookupField [("type", .str "query_response"), ("result", .str "hello")] "result" =
      some (.str "hello") ∧
    (queryCall ackReceived (fun _ => .ok "c") (fun _ _ => .ok .null)
        ([plmCallFrame] ++ [("type", .str "query_response"), ("result", .str "hello")] :: []) =
      .ok (if jsonTruthy (.str "hello") then .str "hello" else .str "No response received") ∧
    ∀ incoming : List Dict, (∀ x ∈ incoming, benignFrame x = true) →
      queryCall ackReceived (fun _ => .ok "c") (fun _ _ => .ok .null) incoming =
        .ok (.str "No response received")) :=
  ⟨by decide, by decide, by decide,
    query_returns_first_truthy_terminal (fun _ => .ok "c") (fun _ _ => .ok .null)
      [plmCallFrame] [("type", .str "query_response"), ("result", .str "hello")] [] (.str "hello")
      (by decide) (by decide) (by decide)⟩

/-- Witness for C3: in the `ctxPlain` run the `plm_call` is in the
trace and the acknowledgement heads it. -/
theorem ack_precedes_callbacks_witness :
    Wire.plmCall [⟨.str "system", .str "sys"⟩, ⟨.str "user", .str "hi"⟩] ∈
        (handle_query ctxPlain).trace ∧
      isCallbackMsg (Wire.plmCall [⟨.str "system", .str "sys"⟩, ⟨.str "user", .str "hi"⟩]) = true ∧
      ((handle_query ctxPlain).trace.head? = some Wire.queryReceived ∧
        Wire.plmCall [⟨.str "system", .str "sys"⟩, ⟨.str "user", .str "hi"⟩] ∈
          (handle_query ctxPlain).trace.tail) :=
  ⟨by decide, by decide,
    ack_precedes_callbacks ctxPlain _ (by decide) (by decide)⟩

/-- C5: while a connection is unregistered (`client_id` still `None`),
any parseable message whose type is not `register` only draws an
`error` reply: the registry is unchanged, the connection's `client_id`
stays `None` (it is not promoted), and exactly one error reply is
sent. -/
theorem unregistered_nonregister_rejected (hasHandler : Bool) (reg : Registry)
    (conn : Nat) (d : Dict) (ho : Except String Unit)
    (hty : ¬ lookupField d "type" = some (.str "register")) :
    (handle_client_step hasHandler reg conn none (.data d ho)).1 = reg ∧
      (handle_client_step hasHandler reg conn none (.data d ho)).2.1 = none ∧
      ∃ m, (handle_client_step hasHandler reg conn none (.data d ho)).2.2 =
        [.errorMsg m] := by
  unfold handle_client_step
  dsimp only
  rw [if_neg hty]
  by_cases h2 : lookupField d "type" = some (.str "query")
  · rw [if_pos h2]
    exact ⟨rfl, rfl, "Client not registered", rfl⟩
  · rw [if_neg h2]
    exact ⟨rfl, rfl, _, rfl⟩

/-- Witness for C5 at a concrete pre-registration `query` frame. -/
theorem unregistered_nonregister_rejected_witness :
    ¬ lookupField [("type", Json.str "query")] "type" = some (.str "register") ∧
    ((handle_client_step true [] 0 none (.data [("type", Json.str "query")] (.ok ()))).1 = [] ∧
      (handle_client_step true [] 0 none (.data [("type", Json.str "query")] (.ok ()))).2.1 = none ∧
      ∃ m, (handle_client_step true [] 0 none (.data [("type", Json.str "query")] (.ok ()))).2.2 =
        [.errorMsg m]) :=
  ⟨by decide,
    unregistered_nonregister_rejected true [] 0 [("type", Json.str "query")] (.ok ())
      (by decide)⟩

/-- After assigning a key, looking it up yields the new value. -/
theorem lookupRegistry_register_client (reg : Registry) (k : Json) (v : Nat) :
    lookupRegistry (register_client reg k v) k = some v := by
  induction reg with
  | nil => simp [register_client, lookupRegistry]
  | cons p rest ih =>
    rcases p with ⟨k', v'⟩
    unfold register_client
    by_cases h : k' = k
    · rw [if_pos h]
      unfold lookupRegistry
      rw [if_pos rfl]
    · rw [if_neg h]
      unfold lookupRegistry
      rw [if_neg h]
      exact ih

/-- C10: `register_client` on an identity already in the registry is a
plain dict assignment — it cannot fail and overwrites the entry — so
every subsequent `send_to_client` / `send_to_client_only` for that
identity routes to the most recently registered connection, and in
particular never to any previously registered connection that differs
from it. -/
theorem reregister_last_writer_wins (reg : Registry) (cid : Json) (c2 : Nat) :
    send_to_client (register_client reg cid c2) cid = .ok c2 ∧
      ∀ c1 : Nat, ¬ c1 = c2 →
        ¬ send_to_client (register_client reg cid c2) cid = .ok c1 := by
  constructor
  · unfold send_to_client
    rw [lookupRegistry_register_client]
  · intro c1 hne hc
    unfold send_to_client at hc
    rw [lookupRegistry_register_client] at hc
    exact hne (Except.ok.inj hc).symm

/-- Witness for C10: identity `"a"` first maps to connection 1, then
re-registering routes it to connection 2. -/
theorem reregister_last_writer_wins_witness :
    send_to_client (register_client [(Json.str "a", 1)] (Json.str "a") 2) (Json.str "a") =
        .ok 2 ∧
      ∀ c1 : Nat, ¬ c1 = 2 →
        ¬ send_to_client (register_client [(Json.str "a", 1)] (Json.str "a") 2)
            (Json.str "a") = .ok c1 :=
  reregister_last_writer_wins [(Json.str "a", 1)] (Json.str "a") 2

/-- Two `register` frames with different identities arriving on the
same connection. -/
def doubleRegFrames : List Frame :=
  [.data [("type", .str "register"), ("client_id", .str "a")] (.ok ()),
   .data [("type", .str "register"), ("client_id", .str "b")] (.ok ())]

/-- C4 counterexample: a connection that registers twice under
different identities.  After the run both identities `"a"` and `"b"`
map to connection 1 — two identities for one connection, refuting
"every connection is mapped to at most one client identity" — and the
close handler (`finally`) removes only the last identity `"b"`, leaving
the closed connection's entry for `"a"` in the registry, refuting "when
a connection closes its client identity entry is removed". -/
theorem registry_bijection_counterexample :
    ((runConn true [] 1 none doubleRegFrames).1.filter (fun p => p.2 == 1)).length = 2 ∧
      ¬ (((runConn true [] 1 none doubleRegFrames).1.filter (fun p => p.2 == 1)).length ≤ 1) ∧
      lookupRegistry
        (closeConn (runConn true [] 1 none doubleRegFrames).1
          (runConn true [] 1 none doubleRegFrames).2)
        (.str "a") = some 1 := by
  refine ⟨?_, ?_, ?_⟩ <;> decide

/-- C4 (amended): for the registry's whole lifetime every client
identity maps to at most one connection (the registry's keys stay
distinct, across every loop iteration and across the close handler),
and when a connection closes or errors the entry for its handler's
current — most recently registered and truthy — identity is removed;
earlier identities the same connection registered under may remain. -/
theorem registry_identity_functional (hasHandler : Bool) (conn : Nat)
    (frames : List Frame) (reg : Registry) (cid : Option Json)
    (h : keysNodup reg) :
    keysNodup (runConn hasHandler reg conn cid frames).1 ∧
      keysNodup (closeConn (runConn hasHandler reg conn cid frames).1
        (runConn hasHandler reg conn cid frames).2) ∧
      ∀ j, (runConn hasHandler reg conn cid frames).2 = some j →
        jsonTruthy j = true →
        lookupRegistry (closeConn (runConn hasHandler reg conn cid frames).1
          (runConn hasHandler reg conn cid frames).2) j = none := by
  have hrun : keysNodup (runConn hasHandler reg conn cid frames).1 :=
    runConn_keysNodup hasHandler conn frames reg cid h
  refine ⟨hrun, ?_, ?_⟩
  · unfold closeConn
    rcases (runConn hasHandler reg conn cid frames).2 with _ | j
    · exact hrun
    · dsimp only
      by_cases hj : jsonTruthy j = true
      · rw [if_pos hj]
        exact keysNodup_unregister_client _ j hrun
      · rw [if_neg hj]
        exact hrun
  · intro j hj htruthy
    rw [hj]
    unfold closeConn
    dsimp only
    rw [if_pos htruthy]
    exact lookupRegistry_unregister_client _ j hrun

/-- Witness for the amended C4 on the double-registration run. -/
theorem registry_identity_functional_witness :
    keysNodup ([] : Registry) ∧
      (keysNodup (runConn true [] 1 none doubleRegFrames).1 ∧
        keysNodup (closeConn (runConn true [] 1 none doubleRegFrames).1
          (runConn true [] 1 none doubleRegFrames).2) ∧
        ∀ j, (runConn true [] 1 none doubleRegFrames).2 = some j →
          jsonTruthy j = true →
          lookupRegistry (closeConn (runConn true [] 1 none doubleRegFrames).1
            (runConn true [] 1 none doubleRegFrames).2) j = none) :=
  ⟨by simp [keysNodup],
    registry_identity_functional true 1 doubleRegFrames [] none (by simp [keysNodup])⟩

/-- `Message.from_dict` inverts `Message.to_dict`. -/
theorem from_dict_to_dict (m : Message) :
    Message.from_dict (Message.to_dict m) = some m := by
  cases m
  rfl

/-- Decoding inverts encoding on message-dict lists. -/
theorem decodeMsgObjs_encode (ms : List Message) :
    decodeMsgObjs (ms.map (fun m => Json.obj m.to_dict)) = some ms := by
  induction ms with
  | nil => rfl
  | cons m rest ih =>
    simp only [List.map_cons]
    unfold decodeMsgObjs
    rw [from_dict_to_dict, ih]

/-- C8: encoding any section-6 wire message variant to its JSON frame
and decoding that frame yields the original message with every field of
the table preserved; in particular `Message.from_dict(m.to_dict())`
restores role and content of every conversation message `m`. -/
theorem wire_roundtrip :
    (∀ w : Wire, decodeWire (encodeWire w) = some w) ∧
      ∀ m : Message, Message.from_dict (Message.to_dict m) = some m := by
  constructor
  · intro w
    cases w with
    | register c => rfl
    | registered c => rfl
    | query q tools => rfl
    | queryReceived => rfl
    | plmCall ms =>
      show (decodeMsgList (Json.arr (ms.map fun m => Json.obj m.to_dict))).map
          Wire.plmCall = some (Wire.plmCall ms)
      unfold decodeMsgList
      dsimp only
      rw [decodeMsgObjs_encode]
      rfl
    | plmResponse reply => cases reply <;> rfl
    | qlmCall p s => rfl
    | qlmResponse reply => cases reply <;> rfl
    | functionCall n a => rfl
    | functionResponse reply => cases reply <;> rfl
    | queryResponse r => rfl
    | errorMsg m => rfl
  · exact from_dict_to_dict

end Camel
